import Mathlib

/-!
Verification of the radiology-image-viewer client (JobStatus / ImageUploader
components) and of the spec-described backend orchestration core.

Client definitions are shallow embeddings of
`src/radiology-frontend/app/components/JobStatus.tsx` (the `JobStatus`
polling component and the `ImageUploader` component that follows it in the
same file).  The backend (Job Orchestrator, Status Aggregator, Isolation
Gate, File Access Layer) is not part of the source tree; where a claim
needs it, the corresponding definition is modelled from the spec and marked
as such in its doc comment.
-/

namespace RadViewer

/-! ## JavaScript string helpers

JS strings are modelled as `List Char`.  `jsSplitOn` is the semantics of
`String.prototype.split` with a single-character separator:
`"".split(sep)` is `[""]`, a trailing separator yields a trailing empty
component, and the result is never the empty array. -/

/-- Semantics of JavaScript `s.split(sep)` for a one-character separator. -/
def jsSplitOn (sep : Char) : List Char → List (List Char)
  | [] => [[]]
  | c :: cs =>
    let rest := jsSplitOn sep cs
    if c = sep then [] :: rest
    else
      match rest with
      | [] => [[c]]
      | r :: rs => (c :: r) :: rs

/-- Semantics of JavaScript `parts[parts.length - 1]` on a non-empty array
(`split` never returns an empty array). -/
def lastPart : List (List Char) → List Char
  | [] => []
  | [r] => r
  | _ :: r :: rs => lastPart (r :: rs)

/-- Embeds JobStatus.tsx lines 53-54:
`const parts = filePath.split('/'); const filename = parts[parts.length - 1];` -/
def filenameChars (filePath : List Char) : List Char :=
  lastPart (jsSplitOn '/' filePath)

/-- The filename component as a `String`. -/
def filenameOf (filePath : String) : String :=
  String.mk (filenameChars filePath.toList)

/-- Embeds JobStatus.tsx line 55: the retrieval URL
`http://localhost:8000/files/${userId}/${jobId}/${filename}` built from a
task's `output_file` path. -/
def fileUrl (userId jobId filePath : String) : String :=
  "http://localhost:8000/files/" ++ userId ++ "/" ++ jobId ++ "/" ++ filenameOf filePath

/-! ## The client's view of a task result -/

/-- The `result` payload of a task as the client sees it (`result: any` in
the TS interface; the client only reads `result.output_file`).  `none` for
an absent `output_file` field. -/
structure ResultPayload where
  output_file : Option String
  deriving Repr, DecidableEq

/-- Embeds the `TaskResult` interface of JobStatus.tsx (lines 12-17).
`result` is `none` when the JSON field is null or absent. -/
structure TaskResult where
  task_id : String
  status : String
  progress : Int
  result : Option ResultPayload
  deriving Repr, DecidableEq

/-- JS truthiness of `task.result?.output_file` (line 48): the optional
chain is truthy when `result` is present, `output_file` is present and the
string is non-empty. -/
def hasOutputFile (t : TaskResult) : Bool :=
  match t.result with
  | none => false
  | some r =>
    match r.output_file with
    | none => false
    | some s => !(s = "")

/-- The `output_file` string of a task result, defaulting to `""` (only read
under the `hasOutputFile` filter). -/
def outputFileOf (t : TaskResult) : String :=
  match t.result with
  | none => ""
  | some r => r.output_file.getD ""

/-- Embeds JobStatus.tsx lines 47-56: filter the task results on a truthy
`result?.output_file`, then map each retained task's `output_file` path to a
retrieval URL. -/
def extractProcessedImages (userId jobId : String) (taskResults : List TaskResult) :
    List String :=
  (taskResults.filter hasOutputFile).map (fun t => fileUrl userId jobId (outputFileOf t))

/-! ## The JobStatus polling state machine

The component's React state (`status`, `progress`, `tasks`, `error`)
together with whether the `setInterval` handle is still live and the record
of `onComplete` invocations.  One element of `PollResponse` is the outcome
of one `axios.get` awaited inside the interval callback. -/

/-- The body of a successful `GET /jobs/{jobId}` response as the client
reads it.  `task_results` is `none` when the field is null or absent (the
code guards the `setTasks` read with `|| []` but not the extraction read). -/
structure StatusResponse where
  status : String
  progress : Int
  task_results : Option (List TaskResult)
  deriving Repr, DecidableEq

/-- Outcome of one poll: a successful response, or a thrown error carrying
`err.response?.status` (`none` when there is no HTTP response, e.g. a
network fault). -/
inductive PollResponse where
  | ok (data : StatusResponse)
  | err (httpStatus : Option Nat)
  deriving Repr, DecidableEq

/-- The React state of the `JobStatus` component plus the observable
effects: `intervalActive` is whether the interval has not been cleared, and
`onCompleteCalls` records each `onComplete(processedImages)` invocation. -/
structure JobStatusState where
  status : String
  progress : Int
  tasks : List TaskResult
  error : String
  intervalActive : Bool
  onCompleteCalls : List (List String)
  deriving Repr, DecidableEq

/-- The component's initial state (JobStatus.tsx lines 20-23) with a live
interval and no `onComplete` calls yet. -/
def initialJobStatusState : JobStatusState :=
  { status := "PENDING", progress := 0, tasks := [], error := ""
    intervalActive := true, onCompleteCalls := [] }

/-- The poll interval passed to `setInterval` (JobStatus.tsx line 70), in
milliseconds. -/
def pollIntervalMs : Nat := 2000

/-- Embeds one execution of the interval callback (JobStatus.tsx lines
27-69) given the outcome of the `axios.get`.

On a successful response the three `set*` calls always run; on `"SUCCESS"`
the interval is cleared and, when `task_results` is present, the extracted
URLs are passed to `onComplete` (when `task_results` is null the extraction
throws a TypeError after `clearInterval`, which the `catch` swallows since
the error carries no `response.status`); on `"FAILED"` the interval is
cleared and the error message set.  On a thrown request error, only an HTTP
404 changes anything: it sets the error message and clears the interval. -/
def pollTick (userId jobId : String) (s : JobStatusState) (r : PollResponse) :
    JobStatusState :=
  match r with
  | .ok data =>
    let s' : JobStatusState :=
      { s with status := data.status, progress := data.progress
               tasks := data.task_results.getD [] }
    if data.status = "SUCCESS" then
      match data.task_results with
      | some ts =>
        { s' with intervalActive := false
                  onCompleteCalls :=
                    s'.onCompleteCalls ++ [extractProcessedImages userId jobId ts] }
      | none => { s' with intervalActive := false }
    else if data.status = "FAILED" then
      { s' with intervalActive := false, error := "Job failed. Please try again." }
    else s'
  | .err httpStatus =>
    if httpStatus = some 404 then
      { s with error := "Job not found or access denied", intervalActive := false }
    else s

/-- A serialized polling session: the interval fires once per pending
response while it has not been cleared, and each response is processed
before the next firing; once cleared, no further callback runs.  This is
the session as observed when every response resolves within the 2000 ms
period (no two requests in flight at once). -/
def runPolls (userId jobId : String) (s : JobStatusState) :
    List PollResponse → JobStatusState
  | [] => s
  | r :: rs =>
    if s.intervalActive then runPolls userId jobId (pollTick userId jobId s r) rs
    else s

/-! ## The polling session with overlapping requests

The `setInterval` callback is an `async` function with no in-flight guard:
a firing issues its `axios.get` and suspends at the `await`; if the
response outlasts the 2000 ms period, the next firing issues a second
request before the first resolves.  `clearInterval` stops future firings
but cannot cancel a callback already suspended at its `await` — that
callback still resumes and runs the rest of its body when its response
arrives.  The model below keeps, next to the component state, the number
of issued-but-unresolved requests. -/

/-- The component state together with the number of in-flight requests
(callbacks suspended at their `await`). -/
structure AsyncSessionState where
  comp : JobStatusState
  inflight : Nat
  deriving Repr, DecidableEq

/-- One scheduler event of a polling session: `fire` is one firing of the
`setInterval` callback (it issues the request and suspends; it only
happens while the interval is registered); `resolve r` is the resumption
of one suspended callback with its response `r`. -/
inductive SessionEvent where
  | fire
  | resolve (r : PollResponse)
  deriving Repr, DecidableEq

/-- The session state at mount: the component's initial state, no request
in flight. -/
def initialSession : AsyncSessionState :=
  { comp := initialJobStatusState, inflight := 0 }

/-- The effect of one scheduler event.  A `fire` while the interval is
registered adds an in-flight request (the body up to the `await` has no
other observable effect); a `fire` after `clearInterval` never happens
(no-op).  A `resolve` of one in-flight request runs the rest of the
callback body — `pollTick` — even when the interval has already been
cleared, since `clearInterval` cannot cancel a suspended callback. -/
def sessionStep (userId jobId : String) (s : AsyncSessionState)
    (e : SessionEvent) : AsyncSessionState :=
  match e with
  | .fire =>
    if s.comp.intervalActive then { s with inflight := s.inflight + 1 } else s
  | .resolve r =>
    match s.inflight with
    | 0 => s
    | n + 1 => { comp := pollTick userId jobId s.comp r, inflight := n }

/-- A whole session: the scheduler events in the order they occur. -/
def runSession (userId jobId : String) (s : AsyncSessionState) :
    List SessionEvent → AsyncSessionState
  | [] => s
  | e :: es => runSession userId jobId (sessionStep userId jobId s e) es

/-- Whether a session trace is serialized: at no point is more than one
request in flight, i.e. every response resolves before the next interval
firing. -/
def serializedTrace (userId jobId : String) (s : AsyncSessionState) :
    List SessionEvent → Bool
  | [] => true
  | e :: es =>
    decide (s.inflight ≤ 1) &&
      serializedTrace userId jobId (sessionStep userId jobId s e) es

/-! ## The ImageUploader component

Embeds the `ImageUploader` component in the same source file (its `TaskType`
union, its state, and `handleUpload`). -/

/-- Embeds `type TaskType = "blur" | "resize" | "grayscale"` (line 173):
the fixed enumerated set of operation kinds the uploader can hold. -/
inductive TaskType where
  | blur
  | resize
  | grayscale
  deriving Repr, DecidableEq

/-- The string value a `TaskType` contributes to the form data. -/
def taskTypeStr : TaskType → String
  | .blur => "blur"
  | .resize => "resize"
  | .grayscale => "grayscale"

/-- A file selected in the file input: its name and size in bytes (content
is opaque to the uploader logic). -/
structure SelectedFile where
  name : String
  size : Nat
  deriving Repr, DecidableEq

/-- The React state of the `ImageUploader` component (lines 176-179):
`files` is `none` for a null `FileList`. -/
structure UploaderState where
  files : Option (List SelectedFile)
  uploading : Bool
  error : String
  taskType : TaskType
  deriving Repr, DecidableEq

/-- The multipart form data the uploader submits: one `files` entry per
selected file, plus the `task_type` field (lines 196-204). -/
structure JobForm where
  fileEntries : List SelectedFile
  task_type : String
  deriving Repr, DecidableEq

/-- Observable effects of one `handleUpload` run: the `POST /jobs` request
(if any) and the `onJobCreated(job_id)` callback (if any). -/
structure UploadEffects where
  postedForm : Option JobForm
  jobCreatedCalls : List String
  deriving Repr, DecidableEq

/-- Outcome of the `axios.post`: the `job_id` of the created job, or a
thrown error carrying `err.response?.data?.detail` (`none` when absent). -/
inductive PostOutcome where
  | ok (job_id : String)
  | err (detail : Option String)
  deriving Repr, DecidableEq

/-- JS `err.response?.data?.detail || 'Upload failed. Please try again.'`
(line 227): the fallback fires when `detail` is absent or falsy (empty). -/
def uploadErrMsg (detail : Option String) : String :=
  match detail with
  | none => "Upload failed. Please try again."
  | some d => if d = "" then "Upload failed. Please try again." else d

/-- Embeds `handleUpload` (lines 186-231).  When no file is selected
(`files` null or of length zero) it sets the error message and returns
without any request.  Otherwise it builds the form data, posts it and, on
success, calls `onJobCreated` with the returned `job_id` and clears the
file selection; on failure it sets the error message.  The `finally` block
resets `uploading`. -/
def handleUpload (s : UploaderState) (outcome : PostOutcome) :
    UploaderState × UploadEffects :=
  match s.files with
  | none =>
    ({ s with error := "Please select at least one file" },
     { postedForm := none, jobCreatedCalls := [] })
  | some fs =>
    if fs.length = 0 then
      ({ s with error := "Please select at least one file" },
       { postedForm := none, jobCreatedCalls := [] })
    else
      let form : JobForm := { fileEntries := fs, task_type := taskTypeStr s.taskType }
      match outcome with
      | .ok jobId =>
        ({ s with uploading := false, error := "", files := none },
         { postedForm := some form, jobCreatedCalls := [jobId] })
      | .err detail =>
        ({ s with uploading := false, error := uploadErrMsg detail },
         { postedForm := some form, jobCreatedCalls := [] })

/-! ## The backend orchestration core, modelled from the spec

The backend service (Job Orchestrator, Task Registry, Status Aggregator,
Isolation Gate, File Access Layer) is not under the source tree; only its
client is.  The definitions below are modelled from spec.md sections 3-4. -/

/-- Modelled from the spec: a task's `status` field, one of `PENDING`,
`RUNNING`, `SUCCESS`, `FAILED` (spec section 3, Task). -/
inductive TaskStatus where
  | PENDING
  | RUNNING
  | SUCCESS
  | FAILED
  deriving Repr, DecidableEq

/-- A terminal task status (spec glossary: `SUCCESS` or `FAILED`). -/
def TaskStatus.isTerminal : TaskStatus → Bool
  | .SUCCESS => true
  | .FAILED => true
  | _ => false

/-- Modelled from the spec: the stored result of a terminal task (spec
section 3, Task `result`). -/
structure TaskRecordResult where
  input_file : String
  output_file : Option String
  operation_kind : String
  deriving Repr, DecidableEq

/-- Modelled from the spec: a Task Registry entry (spec section 3, Task). -/
structure Task where
  task_id : String
  job_id : String
  status : TaskStatus
  progress : Nat
  result : Option TaskRecordResult
  deriving Repr, DecidableEq

/-- Modelled from the spec: a Job record (spec section 3, Job). -/
structure Job where
  job_id : String
  owner_id : String
  task_ids : List String
  deriving Repr, DecidableEq

/-- Modelled from the spec: the in-memory store — jobs plus the Task
Registry (spec sections 2-3). -/
structure Registry where
  jobs : List Job
  tasks : List Task
  deriving Repr, DecidableEq

/-- Job lookup by identifier. -/
def findJob (reg : Registry) (jobId : String) : Option Job :=
  reg.jobs.find? (fun j => j.job_id = jobId)

/-- Task lookup by identifier. -/
def findTask (reg : Registry) (taskId : String) : Option Task :=
  reg.tasks.find? (fun t => t.task_id = taskId)

/-- Modelled from the spec: the Isolation Gate,
`Authorize(owner_id_claim, job_id) → Job | Denied` (spec section 4.4):
absent job denies; present job with a stored `owner_id` different from the
claim denies with the same outward signal (`none`). -/
def authorize (reg : Registry) (ownerClaim jobId : String) : Option Job :=
  match findJob reg jobId with
  | none => none
  | some j => if j.owner_id = ownerClaim then some j else none

/-- The tasks of a job, in the job's original `task_ids` order. -/
def jobTasks (reg : Registry) (j : Job) : List Task :=
  j.task_ids.filterMap (fun tid => findTask reg tid)

/-- Modelled from the spec: the Status Aggregator's aggregation rule (spec
section 4.3): `FAILED` if any task is `FAILED`; else `SUCCESS` if all tasks
are `SUCCESS`; else `RUNNING` if any task is `RUNNING` or has progressed
past `PENDING`; else `PENDING`. -/
def aggregateStatus (tasks : List Task) : TaskStatus :=
  if tasks.any (fun t => t.status = .FAILED) then .FAILED
  else if tasks.all (fun t => t.status = .SUCCESS) then .SUCCESS
  else if tasks.any (fun t => t.status = .RUNNING || !(t.status = .PENDING)) then .RUNNING
  else .PENDING

/-- Modelled from the spec: aggregate progress,
`floor(mean(task.progress))` (spec section 4.3). -/
def aggregateProgress (tasks : List Task) : Nat :=
  if tasks.length = 0 then 0
  else (tasks.map (fun t => t.progress)).sum / tasks.length

/-- Modelled from the spec: the per-job view returned by a status query
(spec sections 4.3 and 6). -/
structure JobStatusView where
  job_id : String
  status : TaskStatus
  progress : Nat
  task_results : List Task
  deriving Repr, DecidableEq

/-- Modelled from the spec: `GetJobStatus(owner_id, job_id)` (spec section
4.3): applies the Isolation Gate first; on denial the outward signal is the
uniform `none` (not-found); otherwise folds the job's tasks. -/
def getJobStatus (reg : Registry) (ownerClaim jobId : String) : Option JobStatusView :=
  match authorize reg ownerClaim jobId with
  | none => none
  | some j =>
    let ts := jobTasks reg j
    some { job_id := j.job_id, status := aggregateStatus ts
           progress := aggregateProgress ts, task_results := ts }

/-- Modelled from the spec: a single-task query (spec section 6), isolated
through the task's owning job; unknown task or denied job gives the uniform
`none`. -/
def getTaskView (reg : Registry) (ownerClaim taskId : String) : Option Task :=
  match findTask reg taskId with
  | none => none
  | some t =>
    match authorize reg ownerClaim t.job_id with
    | none => none
    | some _ => some t

/-- An output artifact in the file store, keyed by owner, job and filename. -/
structure StoredFile where
  owner_id : String
  job_id : String
  filename : String
  bytes : List Nat
  deriving Repr, DecidableEq

/-- Modelled from the spec: the File Access Layer,
`GetOutputFile(owner_id, job_id, filename)` (spec section 4.5): applies the
Isolation Gate first, then resolves the filename in the artifact namespace
scoped to the (owner, job) pair; any miss is the uniform `none`. -/
def getOutputFile (reg : Registry) (store : List StoredFile)
    (ownerClaim jobId filename : String) : Option (List Nat) :=
  match authorize reg ownerClaim jobId with
  | none => none
  | some j =>
    match store.find? (fun f =>
        f.owner_id = j.owner_id && f.job_id = j.job_id && f.filename = filename) with
    | none => none
    | some f => some f.bytes

/-! ## Worker-pool transition system, modelled from the spec -/

/-- Modelled from the spec: the transitions a worker may apply to the task
it has claimed (spec sections 4.2 and 8): dequeue a `PENDING` task and mark
it `RUNNING`; finish a `RUNNING` task as `SUCCESS` or `FAILED`. -/
inductive WorkerStep : TaskStatus → TaskStatus → Prop
  | start : WorkerStep .PENDING .RUNNING
  | succeed : WorkerStep .RUNNING .SUCCESS
  | fail : WorkerStep .RUNNING .FAILED

/-- Modelled from the spec: one step of the whole system — some worker
applies a `WorkerStep` to exactly one task, all other tasks unchanged
(spec section 4.2: a task is claimed by at most one worker and no two
workers ever transition the same task, so each system step touches a
single task).  Task identifiers are drawn from an arbitrary index type. -/
def SysStep {ι : Type} (σ σ' : ι → TaskStatus) : Prop :=
  ∃ i : ι, WorkerStep (σ i) (σ' i) ∧ ∀ k : ι, ¬ k = i → σ' k = σ k

/-- An interleaving of workers: any finite sequence of system steps. -/
def Reachable {ι : Type} : (ι → TaskStatus) → (ι → TaskStatus) → Prop :=
  Relation.ReflTransGen SysStep

/-! ## Specification-side definitions

Used only to compare the embedded code against the spec wording. -/

/-- Specification-side reading of the filename derivation: the substring of
a path after its last `'/'` (the whole string when it contains none),
i.e. the longest slash-free suffix. -/
def suffixAfterLastSlash (l : List Char) : List Char :=
  (l.reverse.takeWhile (fun c => !(c = '/'))).reverse

/-! ## Concrete sample values, used by the witness theorems -/

/-- A sample task-result payload with an `output_file` path. -/
def sampleResult : ResultPayload := { output_file := some "outputs/u1/j1/img.png" }

/-- A sample successful task result as the client sees it. -/
def sampleTaskResult : TaskResult :=
  { task_id := "t1", status := "SUCCESS", progress := 100, result := some sampleResult }

/-- A sample `SUCCESS` status response with one task result. -/
def sampleSuccessResponse : StatusResponse :=
  { status := "SUCCESS", progress := 100, task_results := some [sampleTaskResult] }

/-- A sample `FAILED` status response. -/
def sampleFailedResponse : StatusResponse :=
  { status := "FAILED", progress := 50, task_results := some [] }

/-- A sample `RUNNING` status response. -/
def sampleRunningResponse : StatusResponse :=
  { status := "RUNNING", progress := 40, task_results := some [] }

/-- The component state after the interval has been cleared. -/
def stoppedState : JobStatusState :=
  { initialJobStatusState with intervalActive := false }

/-- A sample selected file. -/
def sampleFile : SelectedFile := { name := "scan.png", size := 2048 }

/-- An uploader state with no file selected. -/
def emptyUploaderState : UploaderState :=
  { files := none, uploading := false, error := "", taskType := TaskType.blur }

/-- An uploader state with one file selected. -/
def readyUploaderState : UploaderState :=
  { files := some [sampleFile], uploading := false, error := "", taskType := TaskType.blur }

/-- The form data submitted from `readyUploaderState`. -/
def sampleForm : JobForm := { fileEntries := [sampleFile], task_type := "blur" }

/-- A sample stored task result on the backend. -/
def sampleRecordResult : TaskRecordResult :=
  { input_file := "scan.png", output_file := some "outputs/alice/j1/scan.png"
    operation_kind := "blur" }

/-- A sample backend task owned by job `j1`. -/
def sampleTask : Task :=
  { task_id := "t1", job_id := "j1", status := TaskStatus.SUCCESS, progress := 100
    result := some sampleRecordResult }

/-- A sample backend task in the `FAILED` state. -/
def sampleFailedTask : Task :=
  { task_id := "t2", job_id := "j1", status := TaskStatus.FAILED, progress := 30
    result := none }

/-- A sample backend task in the `PENDING` state. -/
def samplePendingTask : Task :=
  { task_id := "t3", job_id := "j1", status := TaskStatus.PENDING, progress := 0
    result := none }

/-- A sample job owned by `alice`. -/
def sampleJob : Job := { job_id := "j1", owner_id := "alice", task_ids := ["t1"] }

/-- A sample registry holding `alice`'s job `j1` and its task. -/
def sampleRegistry : Registry := { jobs := [sampleJob], tasks := [sampleTask] }

/-- A sample file store holding one artifact of `alice`'s job `j1`. -/
def sampleStore : List StoredFile :=
  [{ owner_id := "alice", job_id := "j1", filename := "scan.png", bytes := [7, 7] }]

/-! ## Helper lemmas about `takeWhile`, `jsSplitOn` and `lastPart` -/

lemma takeWhile_append_stop {α : Type} (p : α → Bool) (l : List α) (x : α)
    (h : p x = false) : (l ++ [x]).takeWhile p = l.takeWhile p := by
  induction l with
  | nil => simp [List.takeWhile_cons, h]
  | cons a l ih =>
    by_cases ha : p a = true <;> simp [List.takeWhile_cons, ha, ih]

lemma takeWhile_append_left {α : Type} (p : α → Bool) (l l' : List α) (x : α)
    (hx : x ∈ l) (h : p x = false) : (l ++ l').takeWhile p = l.takeWhile p := by
  induction l with
  | nil => cases hx
  | cons a l ih =>
    by_cases ha : p a = true
    · have hxl : x ∈ l := by
        rcases List.mem_cons.mp hx with rfl | hm
        · rw [ha] at h; cases h
        · exact hm
      simp [List.takeWhile_cons, ha, ih hxl]
    · simp [List.takeWhile_cons, ha]

lemma jsSplitOn_ne_nil (sep : Char) (l : List Char) : jsSplitOn sep l ≠ [] := by
  cases l with
  | nil => simp [jsSplitOn]
  | cons c cs =>
    by_cases hc : c = sep
    · simp [jsSplitOn, hc]
    · cases h : jsSplitOn sep cs with
      | nil => simp [jsSplitOn, hc, h]
      | cons r rs => simp [jsSplitOn, hc, h]

lemma jsSplitOn_cons_sep (sep : Char) (cs : List Char) :
    jsSplitOn sep (sep :: cs) = [] :: jsSplitOn sep cs := by
  simp [jsSplitOn]

lemma jsSplitOn_cons_ne (sep c : Char) (cs r : List Char) (rs : List (List Char))
    (hc : ¬ c = sep) (h : jsSplitOn sep cs = r :: rs) :
    jsSplitOn sep (c :: cs) = (c :: r) :: rs := by
  simp [jsSplitOn, hc, h]

lemma jsSplitOn_of_not_mem (sep : Char) (l : List Char) (h : sep ∉ l) :
    jsSplitOn sep l = [l] := by
  induction l with
  | nil => rfl
  | cons c cs ih =>
    have hc : ¬ c = sep := fun e => h (e ▸ List.mem_cons_self c cs)
    have hcs : sep ∉ cs := fun m => h (List.mem_cons_of_mem _ m)
    exact jsSplitOn_cons_ne sep c cs cs [] hc (ih hcs)

lemma jsSplitOn_of_mem (sep : Char) (l : List Char) (h : sep ∈ l) :
    ∃ r r' rs, jsSplitOn sep l = r :: r' :: rs := by
  induction l with
  | nil => cases h
  | cons c cs ih =>
    by_cases hc : c = sep
    · subst hc
      rcases hr : jsSplitOn c cs with _ | ⟨r, rs⟩
      · exact absurd hr (jsSplitOn_ne_nil _ _)
      · exact ⟨[], r, rs, by rw [jsSplitOn_cons_sep, hr]⟩
    · have hcs : sep ∈ cs := by
        rcases List.mem_cons.mp h with hh | hm
        · exact absurd hh.symm hc
        · exact hm
      obtain ⟨r, r', rs, hr⟩ := ih hcs
      exact ⟨c :: r, r', rs, jsSplitOn_cons_ne sep c cs r (r' :: rs) hc hr⟩

lemma lastPart_cons_cons (a b : List Char) (rs : List (List Char)) :
    lastPart (a :: b :: rs) = lastPart (b :: rs) := rfl

/-- The last component of the JS split is exactly the longest slash-free
suffix of the input. -/
lemma filenameChars_eq (l : List Char) :
    filenameChars l = suffixAfterLastSlash l := by
  induction l with
  | nil => rfl
  | cons c cs ih =>
    by_cases hc : c = '/'
    · subst hc
      rcases hr : jsSplitOn '/' cs with _ | ⟨r, rs⟩
      · exact absurd hr (jsSplitOn_ne_nil _ _)
      · have hl : filenameChars ('/' :: cs) = filenameChars cs := by
          unfold filenameChars
          rw [jsSplitOn_cons_sep, hr, lastPart_cons_cons]
        have hrhs : suffixAfterLastSlash ('/' :: cs) = suffixAfterLastSlash cs := by
          unfold suffixAfterLastSlash
          rw [List.reverse_cons, takeWhile_append_stop _ _ _ (by simp)]
        rw [hl, hrhs, ih]
    · by_cases hm : '/' ∈ cs
      · obtain ⟨r, r', rs, hr⟩ := jsSplitOn_of_mem '/' cs hm
        have hl : filenameChars (c :: cs) = filenameChars cs := by
          unfold filenameChars
          rw [jsSplitOn_cons_ne '/' c cs r (r' :: rs) hc hr, hr,
            lastPart_cons_cons, lastPart_cons_cons]
        have hrhs : suffixAfterLastSlash (c :: cs) = suffixAfterLastSlash cs := by
          unfold suffixAfterLastSlash
          rw [List.reverse_cons,
            takeWhile_append_left _ cs.reverse [c] '/' (List.mem_reverse.mpr hm)
              (by simp)]
        rw [hl, hrhs, ih]
      · have hl : filenameChars (c :: cs) = c :: cs := by
          unfold filenameChars
          rw [jsSplitOn_cons_ne '/' c cs cs [] hc (jsSplitOn_of_not_mem '/' cs hm)]
          rfl
        have hall : ((c :: cs).reverse.takeWhile (fun x => !(x = '/'))) =
            (c :: cs).reverse := by
          apply List.takeWhile_eq_self_iff.mpr
          intro x hx
          rw [List.mem_reverse] at hx
          rcases List.mem_cons.mp hx with rfl | hxc
          · simp [hc]
          · simp
            exact fun e => hm (e ▸ hxc)
        unfold suffixAfterLastSlash
        rw [hall, List.reverse_reverse, hl]

lemma filenameChars_no_slash (l : List Char) : '/' ∉ filenameChars l := by
  rw [filenameChars_eq]
  intro hmem
  unfold suffixAfterLastSlash at hmem
  rw [List.mem_reverse] at hmem
  have := List.mem_takeWhile_imp hmem
  simp at this

lemma filenameChars_of_no_slash (l : List Char) (h : '/' ∉ l) :
    filenameChars l = l := by
  rw [filenameChars_eq]
  unfold suffixAfterLastSlash
  have hall : l.reverse.takeWhile (fun x => !(x = '/')) = l.reverse := by
    apply List.takeWhile_eq_self_iff.mpr
    intro x hx
    rw [List.mem_reverse] at hx
    simp
    exact fun e => h (e ▸ hx)
  rw [hall, List.reverse_reverse]

lemma toList_mk (l : List Char) : (String.mk l).toList = l := rfl

lemma mk_toList (s : String) : String.mk s.toList = s := rfl

/-! ## Claim theorems -/

/-- Claim C10: for every `output_file` string, the filename component
placed into the retrieval URL is exactly the substring after its last `'/'`
(the whole string when there is no `'/'`); the filename component never
contains a `'/'`, so every URL the client constructs is the literal
`/files/{userId}/{jobId}/` prefix followed by a slash-free component. -/
theorem C10_filename_is_last_path_component (u j p : String) :
    filenameOf p = String.mk (suffixAfterLastSlash p.toList) ∧
    ('/' ∉ p.toList → filenameOf p = p) ∧
    '/' ∉ (filenameOf p).toList ∧
    fileUrl u j p =
      "http://localhost:8000/files/" ++ u ++ "/" ++ j ++ "/" ++ filenameOf p := by
  refine ⟨?_, ?_, ?_, rfl⟩
  · unfold filenameOf
    rw [filenameChars_eq]
  · intro h
    unfold filenameOf
    rw [filenameChars_of_no_slash _ h, mk_toList]
  · unfold filenameOf
    rw [toList_mk]
    exact filenameChars_no_slash _

/-- Witness for C10 at the concrete path `"outputs/u1/j1/img.png"` and at
the slash-free path `"img.png"`. -/
theorem C10_filename_is_last_path_component_witness :
    ('/' ∉ ("img.png" : String).toList ∧ filenameOf "img.png" = "img.png") ∧
    filenameOf "outputs/u1/j1/img.png" = "img.png" := by
  have h : '/' ∉ ("img.png" : String).toList := by decide
  refine ⟨⟨h, (C10_filename_is_last_path_component "u" "j" "img.png").2.1 h⟩, ?_⟩
  decide

/-- Claim C4: on a poll whose aggregate status is `SUCCESS` (with the
`task_results` array present), the client calls `onComplete` with the list
obtained by converting each task result carrying an `output_file` into a
retrieval reference `http://localhost:8000/files/{userId}/{jobId}/{filename}`
with the filename derived from `output_file`; each such task's reference is
in the list. -/
theorem C4_output_file_to_url (u j : String) (s : JobStatusState)
    (d : StatusResponse) (ts : List TaskResult)
    (hst : d.status = "SUCCESS") (hts : d.task_results = some ts) :
    (pollTick u j s (.ok d)).onCompleteCalls =
      s.onCompleteCalls ++ [extractProcessedImages u j ts] ∧
    extractProcessedImages u j ts =
      (ts.filter hasOutputFile).map (fun t =>
        "http://localhost:8000/files/" ++ u ++ "/" ++ j ++ "/" ++
          filenameOf (outputFileOf t)) ∧
    ∀ t ∈ ts, hasOutputFile t = true →
      fileUrl u j (outputFileOf t) ∈ extractProcessedImages u j ts := by
  refine ⟨?_, rfl, ?_⟩
  · simp [pollTick, hst, hts]
  · intro t ht hf
    exact List.mem_map_of_mem _ (List.mem_filter.mpr ⟨ht, hf⟩)

/-- Witness for C4 at a concrete `SUCCESS` response with one task whose
`output_file` is `"outputs/u1/j1/img.png"`. -/
theorem C4_output_file_to_url_witness :
    sampleSuccessResponse.status = "SUCCESS" ∧
    sampleSuccessResponse.task_results = some [sampleTaskResult] ∧
    (pollTick "u1" "j1" initialJobStatusState (.ok sampleSuccessResponse)
      ).onCompleteCalls = [["http://localhost:8000/files/u1/j1/img.png"]] := by
  refine ⟨rfl, rfl, ?_⟩
  have h := C4_output_file_to_url "u1" "j1" initialJobStatusState
    sampleSuccessResponse [sampleTaskResult] rfl rfl
  rw [h.1]
  decide

/-! ### Aggregation (C2) -/

lemma anyFailed_iff (tasks : List Task) :
    tasks.any (fun t => t.status = TaskStatus.FAILED) = true ↔
      ∃ t ∈ tasks, t.status = TaskStatus.FAILED := by
  simp

lemma allSuccess_iff (tasks : List Task) :
    tasks.all (fun t => t.status = TaskStatus.SUCCESS) = true ↔
      ∀ t ∈ tasks, t.status = TaskStatus.SUCCESS := by
  simp

lemma anyStarted_iff (tasks : List Task) :
    tasks.any (fun t =>
        t.status = TaskStatus.RUNNING || !(t.status = TaskStatus.PENDING)) = true ↔
      ∃ t ∈ tasks, t.status = TaskStatus.RUNNING ∨ ¬ t.status = TaskStatus.PENDING := by
  simp

/-- Claim C2: the aggregate status is `FAILED` if at least one task is
`FAILED`; otherwise `SUCCESS` if every task is `SUCCESS`; otherwise
`RUNNING` if at least one task is `RUNNING` or has progressed past
`PENDING`; otherwise `PENDING`. -/
theorem C2_aggregate_status_rule (tasks : List Task) :
    ((∃ t ∈ tasks, t.status = TaskStatus.FAILED) →
      aggregateStatus tasks = TaskStatus.FAILED) ∧
    (¬ (∃ t ∈ tasks, t.status = TaskStatus.FAILED) →
      (∀ t ∈ tasks, t.status = TaskStatus.SUCCESS) →
      aggregateStatus tasks = TaskStatus.SUCCESS) ∧
    (¬ (∃ t ∈ tasks, t.status = TaskStatus.FAILED) →
      ¬ (∀ t ∈ tasks, t.status = TaskStatus.SUCCESS) →
      (∃ t ∈ tasks, t.status = TaskStatus.RUNNING ∨ ¬ t.status = TaskStatus.PENDING) →
      aggregateStatus tasks = TaskStatus.RUNNING) ∧
    (¬ (∃ t ∈ tasks, t.status = TaskStatus.FAILED) →
      ¬ (∀ t ∈ tasks, t.status = TaskStatus.SUCCESS) →
      ¬ (∃ t ∈ tasks, t.status = TaskStatus.RUNNING ∨ ¬ t.status = TaskStatus.PENDING) →
      aggregateStatus tasks = TaskStatus.PENDING) := by
  refine ⟨?_, ?_, ?_, ?_⟩
  · intro h
    rw [aggregateStatus, if_pos ((anyFailed_iff tasks).mpr h)]
  · intro hnf hall
    rw [aggregateStatus, if_neg (fun hb => hnf ((anyFailed_iff tasks).mp hb)),
      if_pos ((allSuccess_iff tasks).mpr hall)]
  · intro hnf hnall hrun
    rw [aggregateStatus, if_neg (fun hb => hnf ((anyFailed_iff tasks).mp hb)),
      if_neg (fun hb => hnall ((allSuccess_iff tasks).mp hb)),
      if_pos ((anyStarted_iff tasks).mpr hrun)]
  · intro hnf hnall hnrun
    rw [aggregateStatus, if_neg (fun hb => hnf ((anyFailed_iff tasks).mp hb)),
      if_neg (fun hb => hnall ((allSuccess_iff tasks).mp hb)),
      if_neg (fun hb => hnrun ((anyStarted_iff tasks).mp hb))]

/-- Witness for C2 on the one-element task list holding a `FAILED` task. -/
theorem C2_aggregate_status_rule_witness :
    (∃ t ∈ [sampleFailedTask], t.status = TaskStatus.FAILED) ∧
    aggregateStatus [sampleFailedTask] = TaskStatus.FAILED := by
  have h : ∃ t ∈ [sampleFailedTask], t.status = TaskStatus.FAILED :=
    ⟨sampleFailedTask, by simp, rfl⟩
  exact ⟨h, (C2_aggregate_status_rule [sampleFailedTask]).1 h⟩

/-! ### Polling lifecycle (C3) -/

/-- Claim C3: the client polls on a fixed 2000 ms interval; the first poll
whose returned status is `SUCCESS` or `FAILED` clears the interval, and a
session whose interval has been cleared issues no further poll (its state
never changes again). -/
theorem C3_poll_stops_on_terminal (u j : String) (s : JobStatusState)
    (d : StatusResponse) (rs : List PollResponse) :
    pollIntervalMs = 2000 ∧
    ((d.status = "SUCCESS" ∨ d.status = "FAILED") →
      (pollTick u j s (.ok d)).intervalActive = false) ∧
    (s.intervalActive = false → runPolls u j s rs = s) := by
  refine ⟨rfl, ?_, ?_⟩
  · rintro (h | h)
    · rcases hts : d.task_results with _ | ts <;> simp [pollTick, h, hts]
    · by_cases hs : d.status = "SUCCESS"
      · rcases hts : d.task_results with _ | ts <;> simp [pollTick, hs, hts]
      · simp [pollTick, hs, h]
  · intro h
    cases rs <;> simp [runPolls, h]

/-- Witness for C3: the `SUCCESS` response clears the interval of the
initial state, and a stopped session ignores further responses. -/
theorem C3_poll_stops_on_terminal_witness :
    (sampleSuccessResponse.status = "SUCCESS" ∨
      sampleSuccessResponse.status = "FAILED") ∧
    (pollTick "u1" "j1" initialJobStatusState
      (.ok sampleSuccessResponse)).intervalActive = false ∧
    stoppedState.intervalActive = false ∧
    runPolls "u1" "j1" stoppedState [PollResponse.err none] = stoppedState := by
  have h1 : sampleSuccessResponse.status = "SUCCESS" ∨
      sampleSuccessResponse.status = "FAILED" := Or.inl rfl
  have h2 : stoppedState.intervalActive = false := rfl
  exact ⟨h1,
    (C3_poll_stops_on_terminal "u1" "j1" initialJobStatusState
      sampleSuccessResponse []).2.1 h1,
    h2,
    (C3_poll_stops_on_terminal "u1" "j1" stoppedState sampleSuccessResponse
      [PollResponse.err none]).2.2 h2⟩

/-! ### Poll error handling (C8) -/

/-- Claim C8: a poll failing with HTTP 404 sets the error message
`Job not found or access denied` and clears the interval; a poll failing
with any other error leaves the whole component state (status, progress,
tasks, error) and the interval unchanged. -/
theorem C8_poll_error_handling (u j : String) (s : JobStatusState)
    (hs : Option Nat) :
    pollTick u j s (.err (some 404)) =
      { s with error := "Job not found or access denied", intervalActive := false } ∧
    (¬ hs = some 404 → pollTick u j s (.err hs) = s) := by
  constructor
  · simp [pollTick]
  · intro h
    simp [pollTick, h]

/-- Witness for C8: a 404 failure against the initial state, and a
response-less network failure against the initial state. -/
theorem C8_poll_error_handling_witness :
    ¬ (none : Option Nat) = some 404 ∧
    pollTick "u1" "j1" initialJobStatusState (.err (some 404)) =
      { initialJobStatusState with
          error := "Job not found or access denied", intervalActive := false } ∧
    pollTick "u1" "j1" initialJobStatusState (.err none) = initialJobStatusState := by
  have h : ¬ (none : Option Nat) = some 404 := by simp
  exact ⟨h,
    (C8_poll_error_handling "u1" "j1" initialJobStatusState none).1,
    (C8_poll_error_handling "u1" "j1" initialJobStatusState none).2 h⟩

/-! ### `onComplete` discipline (C9) -/

lemma pollTick_calls_mono (u j : String) (s : JobStatusState) (r : PollResponse) :
    (pollTick u j s r).onCompleteCalls = s.onCompleteCalls ∨
    ((pollTick u j s r).onCompleteCalls.length = s.onCompleteCalls.length + 1 ∧
      (pollTick u j s r).intervalActive = false) := by
  cases r with
  | ok d =>
    by_cases hsu : d.status = "SUCCESS"
    · rcases hts : d.task_results with _ | ts
      · left
        simp [pollTick, hsu, hts]
      · right
        constructor <;> simp [pollTick, hsu, hts]
    · left
      by_cases hf : d.status = "FAILED" <;> simp [pollTick, hsu, hf]
  | err st =>
    left
    by_cases h4 : st = some 404 <;> simp [pollTick, h4]

lemma runPolls_inactive (u j : String) (s : JobStatusState)
    (rs : List PollResponse) (h : s.intervalActive = false) :
    runPolls u j s rs = s := by
  cases rs <;> simp [runPolls, h]

lemma runPolls_calls_bound (u j : String) (rs : List PollResponse)
    (s : JobStatusState) :
    (runPolls u j s rs).onCompleteCalls.length ≤ s.onCompleteCalls.length + 1 := by
  induction rs generalizing s with
  | nil =>
    simp only [runPolls]
    exact Nat.le_succ _
  | cons r rs ih =>
    by_cases hact : s.intervalActive = true
    · have hstep : runPolls u j s (r :: rs) = runPolls u j (pollTick u j s r) rs := by
        simp [runPolls, hact]
      rcases pollTick_calls_mono u j s r with heq | ⟨hlen, hstop⟩
      · calc (runPolls u j s (r :: rs)).onCompleteCalls.length
            = (runPolls u j (pollTick u j s r) rs).onCompleteCalls.length := by
              rw [hstep]
          _ ≤ (pollTick u j s r).onCompleteCalls.length + 1 := ih _
          _ = s.onCompleteCalls.length + 1 := by rw [heq]
      · rw [hstep, runPolls_inactive u j _ rs hstop, hlen]
    · have hf : s.intervalActive = false := by
        simpa using hact
      rw [runPolls_inactive u j s (r :: rs) hf]
      exact Nat.le_succ _

lemma pollTick_calls_changed_success (u j : String) (s : JobStatusState)
    (r : PollResponse)
    (hne : (pollTick u j s r).onCompleteCalls ≠ s.onCompleteCalls) :
    ∃ d, r = PollResponse.ok d ∧ d.status = "SUCCESS" := by
  cases r with
  | ok d' =>
    by_cases hsu : d'.status = "SUCCESS"
    · exact ⟨d', rfl, hsu⟩
    · exfalso
      apply hne
      by_cases hf : d'.status = "FAILED" <;> simp [pollTick, hsu, hf]
  | err st =>
    exfalso
    apply hne
    by_cases h4 : st = some 404 <;> simp [pollTick, h4]

lemma sessionStep_calls_mono (u j : String) (s : AsyncSessionState)
    (e : SessionEvent) :
    (sessionStep u j s e).comp.onCompleteCalls = s.comp.onCompleteCalls ∨
    ((sessionStep u j s e).comp.onCompleteCalls.length =
        s.comp.onCompleteCalls.length + 1 ∧
      (sessionStep u j s e).comp.intervalActive = false ∧
      ∃ d, e = SessionEvent.resolve (PollResponse.ok d) ∧
        d.status = "SUCCESS") := by
  cases e with
  | fire =>
    left
    by_cases hact : s.comp.intervalActive = true <;> simp [sessionStep, hact]
  | resolve r =>
    cases hn : s.inflight with
    | zero =>
      left
      simp [sessionStep, hn]
    | succ n =>
      rcases pollTick_calls_mono u j s.comp r with heq | ⟨hlen, hstop⟩
      · left
        simp [sessionStep, hn, heq]
      · right
        have hne : (pollTick u j s.comp r).onCompleteCalls ≠
            s.comp.onCompleteCalls := by
          intro he
          rw [he] at hlen
          omega
        obtain ⟨d, hd, hds⟩ := pollTick_calls_changed_success u j s.comp r hne
        exact ⟨by simp [sessionStep, hn, hlen], by simp [sessionStep, hn, hstop],
          d, by rw [hd], hds⟩

lemma sessionStep_invariant (u j : String) (s : AsyncSessionState)
    (e : SessionEvent) (hle : s.inflight ≤ 1)
    (h1 : s.comp.onCompleteCalls.length ≤ 1)
    (h2 : 1 ≤ s.comp.onCompleteCalls.length →
      s.comp.intervalActive = false ∧ s.inflight = 0) :
    (sessionStep u j s e).comp.onCompleteCalls.length ≤ 1 ∧
    (1 ≤ (sessionStep u j s e).comp.onCompleteCalls.length →
      (sessionStep u j s e).comp.intervalActive = false ∧
      (sessionStep u j s e).inflight = 0) := by
  cases e with
  | fire =>
    by_cases hact : s.comp.intervalActive = true
    · have hcomp : (sessionStep u j s SessionEvent.fire).comp = s.comp := by
        simp [sessionStep, hact]
      refine ⟨by rw [hcomp]; exact h1, ?_⟩
      intro hlen
      rw [hcomp] at hlen
      have hif := h2 hlen
      rw [hif.1] at hact
      cases hact
    · have hstep : sessionStep u j s SessionEvent.fire = s := by
        simp [sessionStep, hact]
      rw [hstep]
      exact ⟨h1, h2⟩
  | resolve r =>
    cases hn : s.inflight with
    | zero =>
      have hstep : sessionStep u j s (SessionEvent.resolve r) = s := by
        simp [sessionStep, hn]
      rw [hstep]
      exact ⟨h1, h2⟩
    | succ n =>
      have hn0 : n = 0 := by
        rw [hn] at hle
        omega
      have hlen0 : s.comp.onCompleteCalls.length = 0 := by
        by_contra hc
        have h1' : 1 ≤ s.comp.onCompleteCalls.length := by omega
        have hinf0 := (h2 h1').2
        rw [hn] at hinf0
        cases hinf0
      have hcomp : (sessionStep u j s (SessionEvent.resolve r)).comp =
          pollTick u j s.comp r := by
        simp [sessionStep, hn]
      have hinf : (sessionStep u j s (SessionEvent.resolve r)).inflight = n := by
        simp [sessionStep, hn]
      rcases pollTick_calls_mono u j s.comp r with heq | ⟨hlen, hstop⟩
      · constructor
        · rw [hcomp, heq]
          exact h1
        · intro hlen1
          rw [hcomp, heq, hlen0] at hlen1
          omega
      · constructor
        · rw [hcomp, hlen, hlen0]
        · intro _
          refine ⟨?_, ?_⟩
          · rw [hcomp]
            exact hstop
          · rw [hinf, hn0]

lemma runSession_serialized_bound (u j : String) (es : List SessionEvent) :
    ∀ s : AsyncSessionState,
      serializedTrace u j s es = true →
      s.comp.onCompleteCalls.length ≤ 1 →
      (1 ≤ s.comp.onCompleteCalls.length →
        s.comp.intervalActive = false ∧ s.inflight = 0) →
      (runSession u j s es).comp.onCompleteCalls.length ≤ 1 := by
  induction es with
  | nil =>
    intro s _ h1 _
    simpa [runSession] using h1
  | cons e es ih =>
    intro s hser h1 h2
    have hser' : (decide (s.inflight ≤ 1) &&
        serializedTrace u j (sessionStep u j s e) es) = true := hser
    rw [Bool.and_eq_true] at hser'
    have hle : s.inflight ≤ 1 := of_decide_eq_true hser'.1
    have hstep := sessionStep_invariant u j s e hle h1 h2
    have hrun : runSession u j s (e :: es) =
        runSession u j (sessionStep u j s e) es := rfl
    rw [hrun]
    exact ih _ hser'.2 hstep.1 hstep.2

/-- Counterexample to claim C9 as stated: a session of the embedded
program in which `onComplete` is invoked twice.  The first response outlasts
the 2000 ms period, so the interval fires a second callback that issues its
own request while the first is still in flight; the first resolves with
`SUCCESS` (`clearInterval` + first `onComplete` call), then the second —
already suspended at its `await` and not cancelled by `clearInterval` —
resolves with `SUCCESS` and calls `onComplete` again. -/
theorem C9_overlap_two_onComplete_calls :
    (runSession "u1" "j1" initialSession
        [SessionEvent.fire, SessionEvent.fire,
         SessionEvent.resolve (PollResponse.ok sampleSuccessResponse),
         SessionEvent.resolve (PollResponse.ok sampleSuccessResponse)]
      ).comp.onCompleteCalls =
      [["http://localhost:8000/files/u1/j1/img.png"],
       ["http://localhost:8000/files/u1/j1/img.png"]] ∧
    ¬ (runSession "u1" "j1" initialSession
        [SessionEvent.fire, SessionEvent.fire,
         SessionEvent.resolve (PollResponse.ok sampleSuccessResponse),
         SessionEvent.resolve (PollResponse.ok sampleSuccessResponse)]
      ).comp.onCompleteCalls.length ≤ 1 := by
  constructor
  · decide
  · decide

/-- Claim C9, amended: `onComplete` is invoked only when a poll returns
`SUCCESS`; each scheduler event of a session adds at most one `onComplete`
call, and only the resolution of a `SUCCESS` response does; a session whose
requests never overlap (at most one in flight at any point) invokes
`onComplete` at most once; and a poll returning `FAILED` stops the
interval, sets the error message `Job failed. Please try again.`, and does
not invoke `onComplete`.  The original at-most-once-per-session bound
fails: overlapping in-flight requests can each resolve with `SUCCESS` after
`clearInterval` and each invokes `onComplete` once. -/
theorem C9_onComplete_only_on_success (u j : String) (s : JobStatusState)
    (r : PollResponse) (d : StatusResponse) (as : AsyncSessionState)
    (e : SessionEvent) (es : List SessionEvent) :
    ((pollTick u j s r).onCompleteCalls ≠ s.onCompleteCalls →
      ∃ d', r = PollResponse.ok d' ∧ d'.status = "SUCCESS") ∧
    ((sessionStep u j as e).comp.onCompleteCalls = as.comp.onCompleteCalls ∨
      ((sessionStep u j as e).comp.onCompleteCalls.length =
          as.comp.onCompleteCalls.length + 1 ∧
        (sessionStep u j as e).comp.intervalActive = false ∧
        ∃ d', e = SessionEvent.resolve (PollResponse.ok d') ∧
          d'.status = "SUCCESS")) ∧
    (serializedTrace u j initialSession es = true →
      (runSession u j initialSession es).comp.onCompleteCalls.length ≤ 1) ∧
    (d.status = "FAILED" →
      (pollTick u j s (.ok d)).intervalActive = false ∧
      (pollTick u j s (.ok d)).error = "Job failed. Please try again." ∧
      (pollTick u j s (.ok d)).onCompleteCalls = s.onCompleteCalls) := by
  refine ⟨pollTick_calls_changed_success u j s r,
    sessionStep_calls_mono u j as e, ?_, ?_⟩
  · intro hser
    exact runSession_serialized_bound u j es initialSession hser
      (by decide) (by decide)
  · intro hf
    have hsu : ¬ d.status = "SUCCESS" := by
      rw [hf]
      decide
    refine ⟨?_, ?_, ?_⟩ <;> simp [pollTick, hsu, hf]

/-- Witness for the amended C9: a `SUCCESS` poll that does append an
`onComplete` call, a serialized two-event session, and a `FAILED` poll. -/
theorem C9_onComplete_only_on_success_witness :
    ((pollTick "u1" "j1" initialJobStatusState
        (.ok sampleSuccessResponse)).onCompleteCalls ≠
      initialJobStatusState.onCompleteCalls) ∧
    (∃ d', PollResponse.ok sampleSuccessResponse = PollResponse.ok d' ∧
      d'.status = "SUCCESS") ∧
    serializedTrace "u1" "j1" initialSession
      [SessionEvent.fire,
       SessionEvent.resolve (PollResponse.ok sampleSuccessResponse)] = true ∧
    (runSession "u1" "j1" initialSession
        [SessionEvent.fire,
         SessionEvent.resolve (PollResponse.ok sampleSuccessResponse)]
      ).comp.onCompleteCalls.length ≤ 1 ∧
    sampleFailedResponse.status = "FAILED" ∧
    (pollTick "u1" "j1" initialJobStatusState
      (.ok sampleFailedResponse)).error = "Job failed. Please try again." := by
  have hne : (pollTick "u1" "j1" initialJobStatusState
      (.ok sampleSuccessResponse)).onCompleteCalls ≠
      initialJobStatusState.onCompleteCalls := by
    decide
  have hser : serializedTrace "u1" "j1" initialSession
      [SessionEvent.fire,
       SessionEvent.resolve (PollResponse.ok sampleSuccessResponse)] = true := by
    decide
  have h := C9_onComplete_only_on_success "u1" "j1" initialJobStatusState
    (.ok sampleSuccessResponse) sampleFailedResponse initialSession
    SessionEvent.fire
    [SessionEvent.fire,
     SessionEvent.resolve (PollResponse.ok sampleSuccessResponse)]
  exact ⟨hne, h.1 hne, hser, h.2.2.1 hser, rfl, (h.2.2.2 rfl).2.1⟩

/-! ### Empty batch rejection (C6) -/

/-- Claim C6: when no file is selected (`files` null or of length zero),
`handleUpload` posts nothing, never calls `onJobCreated`, sets the error
message `Please select at least one file`, and leaves all other state
unchanged. -/
theorem C6_empty_batch_rejected (s : UploaderState) (outcome : PostOutcome)
    (h : s.files = none ∨ ∃ fs, s.files = some fs ∧ fs.length = 0) :
    handleUpload s outcome =
      ({ s with error := "Please select at least one file" },
       { postedForm := none, jobCreatedCalls := [] }) := by
  rcases h with h | ⟨fs, hfs, hlen⟩
  · simp [handleUpload, h]
  · simp [handleUpload, hfs, hlen]

/-- Witness for C6 on the uploader state with a null file selection. -/
theorem C6_empty_batch_rejected_witness :
    emptyUploaderState.files = none ∧
    handleUpload emptyUploaderState (.ok "j9") =
      ({ emptyUploaderState with error := "Please select at least one file" },
       { postedForm := none, jobCreatedCalls := [] }) :=
  ⟨rfl, C6_empty_batch_rejected emptyUploaderState (.ok "j9") (Or.inl rfl)⟩

/-! ### Operation kind enumeration (C7) -/

/-- Claim C7: every form the client posts carries a `task_type` equal to
the string of the uploader's `TaskType` state, which is always one of
`blur`, `resize`, `grayscale` — no other operation kind can appear in the
submitted form data. -/
theorem C7_task_type_enumerated (s : UploaderState) (outcome : PostOutcome)
    (form : JobForm) (h : (handleUpload s outcome).2.postedForm = some form) :
    form.task_type = taskTypeStr s.taskType ∧
    (form.task_type = "blur" ∨ form.task_type = "resize" ∨
      form.task_type = "grayscale") := by
  have henum : taskTypeStr s.taskType = "blur" ∨ taskTypeStr s.taskType = "resize" ∨
      taskTypeStr s.taskType = "grayscale" := by
    cases s.taskType <;> simp [taskTypeStr]
  have hform : form.task_type = taskTypeStr s.taskType := by
    rcases hf : s.files with _ | fs
    · simp [handleUpload, hf] at h
    · by_cases hlen : fs.length = 0
      · simp [handleUpload, hf, hlen] at h
      · cases outcome with
        | ok jid =>
          simp [handleUpload, hf, hlen] at h
          rw [← h]
        | err detail =>
          simp [handleUpload, hf, hlen] at h
          rw [← h]
  exact ⟨hform, hform ▸ henum⟩

/-- Witness for C7: the ready uploader state posts the form with
`task_type = "blur"`. -/
theorem C7_task_type_enumerated_witness :
    (handleUpload readyUploaderState (.ok "j1")).2.postedForm = some sampleForm ∧
    sampleForm.task_type = "blur" ∧
    (sampleForm.task_type = "blur" ∨ sampleForm.task_type = "resize" ∨
      sampleForm.task_type = "grayscale") := by
  have hp : (handleUpload readyUploaderState (.ok "j1")).2.postedForm =
      some sampleForm := by
    decide
  have h := C7_task_type_enumerated readyUploaderState (.ok "j1") sampleForm hp
  exact ⟨hp, h.1, h.2⟩

/-! ### Tenant isolation (C1) -/

/-- Claim C1: a status, task, or file read presented with a claimed
identity `B` different from the job's owner `A` yields the same outward
signal (`none`) as a read of a job or task identifier that does not exist
at all; on the client, this single signal is the HTTP 404 outcome handled
by the one combined branch setting `Job not found or access denied`. -/
theorem C1_isolation_uniform_signal (reg : Registry) (store : List StoredFile)
    (A B jobId missingJobId taskId missingTaskId fname : String)
    (jb : Job) (tk : Task)
    (hfind : findJob reg jobId = some jb) (hown : jb.owner_id = A)
    (hne : ¬ B = A)
    (hmiss : findJob reg missingJobId = none)
    (htk : findTask reg taskId = some tk) (htkjob : tk.job_id = jobId)
    (htmiss : findTask reg missingTaskId = none) :
    getJobStatus reg B jobId = none ∧
    getJobStatus reg B missingJobId = none ∧
    getTaskView reg B taskId = none ∧
    getTaskView reg B missingTaskId = none ∧
    getOutputFile reg store B jobId fname = none ∧
    getOutputFile reg store B missingJobId fname = none ∧
    (∀ (u j : String) (s : JobStatusState),
      pollTick u j s (.err (some 404)) =
        { s with error := "Job not found or access denied",
                 intervalActive := false }) := by
  have hne' : ¬ jb.owner_id = B := by
    rw [hown]
    exact fun e => hne e.symm
  have ha : authorize reg B jobId = none := by
    simp [authorize, hfind, hne']
  have hamiss : authorize reg B missingJobId = none := by
    simp [authorize, hmiss]
  refine ⟨?_, ?_, ?_, ?_, ?_, ?_, ?_⟩
  · simp [getJobStatus, ha]
  · simp [getJobStatus, hamiss]
  · simp [getTaskView, htk, htkjob, ha]
  · simp [getTaskView, htmiss]
  · simp [getOutputFile, ha]
  · simp [getOutputFile, hamiss]
  · intro u j s
    simp [pollTick]

/-- Witness for C1: `bob` reads `alice`'s job `j1`, task `t1`, and output
file, and reads absent identifiers, all with the same `none` signal. -/
theorem C1_isolation_uniform_signal_witness :
    findJob sampleRegistry "j1" = some sampleJob ∧
    ¬ ("bob" : String) = "alice" ∧
    getJobStatus sampleRegistry "bob" "j1" = none ∧
    getJobStatus sampleRegistry "bob" "zz" = none ∧
    getTaskView sampleRegistry "bob" "t1" = none ∧
    getTaskView sampleRegistry "bob" "tz" = none ∧
    getOutputFile sampleRegistry sampleStore "bob" "j1" "scan.png" = none ∧
    getOutputFile sampleRegistry sampleStore "bob" "zz" "scan.png" = none := by
  have h := C1_isolation_uniform_signal sampleRegistry sampleStore
    "alice" "bob" "j1" "zz" "t1" "tz" "scan.png" sampleJob sampleTask
    (by decide) rfl (by decide) (by decide) (by decide) rfl (by decide)
  exact ⟨by decide, by decide, h.1, h.2.1, h.2.2.1, h.2.2.2.1,
    h.2.2.2.2.1, h.2.2.2.2.2.1⟩

/-! ### Forward-only task state machine (C5) -/

/-- Claim C5: the only worker transitions are `PENDING → RUNNING`,
`RUNNING → SUCCESS` and `RUNNING → FAILED`; each system step changes at
most the claimed task and only by such a transition; and under every
interleaving of workers, a task that has reached a terminal status never
changes again (in particular it never re-enters `PENDING` or `RUNNING`). -/
theorem C5_forward_only_transitions (ι : Type) (σ σ' : ι → TaskStatus)
    (a b : TaskStatus) (i : ι) :
    (WorkerStep a b →
      (a = TaskStatus.PENDING ∧ b = TaskStatus.RUNNING) ∨
      (a = TaskStatus.RUNNING ∧ b = TaskStatus.SUCCESS) ∨
      (a = TaskStatus.RUNNING ∧ b = TaskStatus.FAILED)) ∧
    (SysStep σ σ' → ∀ k : ι, σ' k = σ k ∨ WorkerStep (σ k) (σ' k)) ∧
    (Reachable σ σ' → (σ i).isTerminal = true → σ' i = σ i) := by
  refine ⟨?_, ?_, ?_⟩
  · intro h
    cases h with
    | start => exact Or.inl ⟨rfl, rfl⟩
    | succeed => exact Or.inr (Or.inl ⟨rfl, rfl⟩)
    | fail => exact Or.inr (Or.inr ⟨rfl, rfl⟩)
  · rintro ⟨i0, hw, hrest⟩ k
    by_cases hk : k = i0
    · subst hk
      exact Or.inr hw
    · exact Or.inl (hrest k hk)
  · intro hreach hterm
    have hreach' : Relation.ReflTransGen SysStep σ σ' := hreach
    induction hreach' with
    | refl => rfl
    | tail hab hbc ih =>
      rcases hbc with ⟨i0, hw, hrest⟩
      by_cases hk : i = i0
      · subst hk
        exfalso
        rw [ih hab] at hw
        cases hσ : σ i with
        | PENDING => rw [hσ] at hterm; cases hterm
        | RUNNING => rw [hσ] at hterm; cases hterm
        | SUCCESS => rw [hσ] at hw; cases hw
        | FAILED => rw [hσ] at hw; cases hw
      · rw [hrest i hk, ih hab]

/-- Witness for C5: the start transition is in the allowed set, and a
terminal one-task system is stable under the empty interleaving. -/
theorem C5_forward_only_transitions_witness :
    ((TaskStatus.PENDING = TaskStatus.PENDING ∧
        TaskStatus.RUNNING = TaskStatus.RUNNING) ∨
      (TaskStatus.PENDING = TaskStatus.RUNNING ∧
        TaskStatus.RUNNING = TaskStatus.SUCCESS) ∨
      (TaskStatus.PENDING = TaskStatus.RUNNING ∧
        TaskStatus.RUNNING = TaskStatus.FAILED)) ∧
    TaskStatus.SUCCESS.isTerminal = true ∧
    (fun _ : Fin 1 => TaskStatus.SUCCESS) 0 =
      (fun _ : Fin 1 => TaskStatus.SUCCESS) 0 := by
  have h := C5_forward_only_transitions (Fin 1)
    (fun _ => TaskStatus.SUCCESS) (fun _ => TaskStatus.SUCCESS)
    TaskStatus.PENDING TaskStatus.RUNNING 0
  exact ⟨h.1 WorkerStep.start, rfl, h.2.2 Relation.ReflTransGen.refl rfl⟩

end RadViewer
